import Mathlib

/-!
Verification of the mx-chain-notifier-go event notifier.

Shallow embedding of:
* the payload handler (`process/payloadHandler.go`, topic-dispatched decoding),
* the hub (`dispatcher/hub/commonHub.go`: register, unregister, broadcast),
* the RabbitMQ publisher (`rabbitmq/publisher.go`).

External calls (decoder invocations, pushes to dispatchers, AMQP publishes)
are represented as explicit call records returned alongside the new state, so
that theorems can speak about which calls a handler performs.
-/

namespace Notifier

/-- Dispatcher identifier: the Go code uses a 128-bit `uuid.UUID`; identity and
equality are all the claims need, so it is embedded as `Nat`. -/
abbrev UUID := Nat

/-- `data.Event`: one atomic on-chain occurrence (address, identifier, topics,
data, txHash). The hub treats events opaquely; fields follow the data model. -/
structure Event where
  address : String
  identifier : String
  topics : List String
  data : List Nat
  txHash : String
deriving DecidableEq

/-- `data.BlockEvents`: a batch of events bound to a block. -/
structure BlockEvents where
  hash : String
  shardID : Nat
  timestamp : Nat
  events : List Event
deriving DecidableEq

/-- `data.RevertBlock`. -/
structure RevertBlock where
  hash : String
  nonce : Nat
  round : Nat
  epoch : Nat
deriving DecidableEq

/-- `data.FinalizedBlock`. -/
structure FinalizedBlock where
  hash : String
deriving DecidableEq

/-! ## Payload handler (`process/payloadHandler.go`) -/

/-- Error values of the payload handler package: `ErrInvalidPayloadType`,
`ErrInvalidPayloadVersion` (both declared in the source), plus a generic
constructor for errors produced by the data processors themselves. -/
inductive PayloadError where
  | invalidPayloadType
  | invalidPayloadVersion
  | decodeError (msg : String)
deriving DecidableEq

/-- A record of one invocation of a `DataProcessor` method: which decoder
(by version) was handed which payload. -/
inductive DecoderCall where
  | saveBlock (version : String) (payload : List Nat)
  | revertIndexedBlock (version : String) (payload : List Nat)
  | finalizedBlock (version : String) (payload : List Nat)
deriving DecidableEq

/-- A `DataProcessor`: the per-version decoder with the three methods the
payload handler calls. Each returns `none` on success or `some e` on error,
mirroring Go's `error` results. -/
structure DataProcessor where
  saveBlockFn : List Nat → Option PayloadError
  revertIndexedBlockFn : List Nat → Option PayloadError
  finalizedBlockFn : List Nat → Option PayloadError

/-- The payload handler state: the version-keyed table `dp` of data
processors (Go `map[common.PayloadVersion]DataProcessor`). -/
structure PayloadHandler where
  dp : List (String × DataProcessor)

/-- Topic constant `outport.TopicSaveBlock`. -/
def TopicSaveBlock : String := "SaveBlock"

/-- Topic constant `outport.TopicRevertIndexedBlock`. -/
def TopicRevertIndexedBlock : String := "RevertIndexedBlock"

/-- Topic constant `outport.TopicSaveRoundsInfo`. -/
def TopicSaveRoundsInfo : String := "SaveRoundsInfo"

/-- Topic constant `outport.TopicSaveValidatorsRating`. -/
def TopicSaveValidatorsRating : String := "SaveValidatorsRating"

/-- Topic constant `outport.TopicSaveValidatorsPubKeys`. -/
def TopicSaveValidatorsPubKeys : String := "SaveValidatorsPubKeys"

/-- Topic constant `outport.TopicSaveAccounts`. -/
def TopicSaveAccounts : String := "SaveAccounts"

/-- Topic constant `outport.TopicFinalizedBlock`. -/
def TopicFinalizedBlock : String := "FinalizedBlock"

/-- `payloadHandler.saveBlock`: look the version up in `dp`; a missing entry
returns `ErrInvalidPayloadType` (the source returns this error here, not
`ErrInvalidPayloadVersion`); otherwise call the processor's `SaveBlock`. -/
def PayloadHandler.saveBlock (ph : PayloadHandler) (marshalledData : List Nat)
    (version : String) : Option PayloadError × List DecoderCall :=
  match ph.dp.lookup version with
  | none => (some PayloadError.invalidPayloadType, [])
  | some dataProcessor =>
      (dataProcessor.saveBlockFn marshalledData,
       [DecoderCall.saveBlock version marshalledData])

/-- `payloadHandler.revertIndexedBlock`: same table lookup, dispatching to the
processor's `RevertIndexedBlock`. -/
def PayloadHandler.revertIndexedBlock (ph : PayloadHandler) (marshalledData : List Nat)
    (version : String) : Option PayloadError × List DecoderCall :=
  match ph.dp.lookup version with
  | none => (some PayloadError.invalidPayloadType, [])
  | some dataProcessor =>
      (dataProcessor.revertIndexedBlockFn marshalledData,
       [DecoderCall.revertIndexedBlock version marshalledData])

/-- `payloadHandler.finalizedBlock`: same table lookup, dispatching to the
processor's `FinalizedBlock`. -/
def PayloadHandler.finalizedBlock (ph : PayloadHandler) (marshalledData : List Nat)
    (version : String) : Option PayloadError × List DecoderCall :=
  match ph.dp.lookup version with
  | none => (some PayloadError.invalidPayloadType, [])
  | some dataProcessor =>
      (dataProcessor.finalizedBlockFn marshalledData,
       [DecoderCall.finalizedBlock version marshalledData])

/-- `payloadHandler.saveRounds`: no-op, returns nil. -/
def PayloadHandler.saveRounds (_ph : PayloadHandler) (_marshalledData : List Nat)
    (_version : String) : Option PayloadError × List DecoderCall :=
  (none, [])

/-- `payloadHandler.saveValidatorsRating`: no-op, returns nil. -/
def PayloadHandler.saveValidatorsRating (_ph : PayloadHandler) (_marshalledData : List Nat)
    (_version : String) : Option PayloadError × List DecoderCall :=
  (none, [])

/-- `payloadHandler.saveValidatorsPubKeys`: no-op, returns nil. -/
def PayloadHandler.saveValidatorsPubKeys (_ph : PayloadHandler) (_marshalledData : List Nat)
    (_version : String) : Option PayloadError × List DecoderCall :=
  (none, [])

/-- `payloadHandler.saveAccounts`: no-op, returns nil. -/
def PayloadHandler.saveAccounts (_ph : PayloadHandler) (_marshalledData : List Nat)
    (_version : String) : Option PayloadError × List DecoderCall :=
  (none, [])

/-- The `actions` map built by `initActionsMap`, as a topic-keyed table. -/
def PayloadHandler.actions (ph : PayloadHandler) :
    List (String × (List Nat → String → Option PayloadError × List DecoderCall)) :=
  [ (TopicSaveBlock, ph.saveBlock),
    (TopicRevertIndexedBlock, ph.revertIndexedBlock),
    (TopicSaveRoundsInfo, ph.saveRounds),
    (TopicSaveValidatorsRating, ph.saveValidatorsRating),
    (TopicSaveValidatorsPubKeys, ph.saveValidatorsPubKeys),
    (TopicSaveAccounts, ph.saveAccounts),
    (TopicFinalizedBlock, ph.finalizedBlock) ]

/-- `payloadHandler.ProcessPayload`: look the topic up in `actions`; an
unknown topic only logs a warning and returns nil; otherwise run the action
on the payload and version. -/
def PayloadHandler.ProcessPayload (ph : PayloadHandler) (payload : List Nat)
    (topic version : String) : Option PayloadError × List DecoderCall :=
  match ph.actions.lookup topic with
  | none => (none, [])
  | some payloadTypeAction => payloadTypeAction payload version

/-- The list of the seven registered topics. -/
def registeredTopics : List String :=
  [ TopicSaveBlock, TopicRevertIndexedBlock, TopicSaveRoundsInfo,
    TopicSaveValidatorsRating, TopicSaveValidatorsPubKeys,
    TopicSaveAccounts, TopicFinalizedBlock ]

/-! ## Hub (`dispatcher/hub/commonHub.go`) -/

/-- Modelled from the spec: the `dispatcher.Subscription` record (the
dispatcher package is not part of the given sources). A subscription is
owned by a `dispatcherID` and carries the entry fields `{address?,
identifier?, topics?, eventType}`; an absent field is a wildcard. -/
structure Subscription where
  dispatcherID : UUID
  address : Option String
  identifier : Option String
  topics : List String
  eventType : String
deriving DecidableEq

/-- Modelled from the spec: the `dispatcher.SubscriptionMapper` state — the
flat list of all subscriptions, scanned linearly during match (the mapper
implementation is not part of the given sources). -/
structure SubscriptionMapper where
  subscriptions : List Subscription
deriving DecidableEq

/-- `SubscriptionMapper.Subscriptions()`: snapshot of all subscriptions. -/
def SubscriptionMapper.Subscriptions (m : SubscriptionMapper) : List Subscription :=
  m.subscriptions

/-- Modelled from the spec: `removeSubscriptions(id)` deletes every
subscription owned by the id. -/
def SubscriptionMapper.removeSubscriptions (m : SubscriptionMapper) (id : UUID) :
    SubscriptionMapper :=
  ⟨m.subscriptions.filter (fun s => !(s.dispatcherID == id))⟩

/-- `subscriptionsFor(id)`: the subscriptions owned by the id. -/
def SubscriptionMapper.subscriptionsFor (m : SubscriptionMapper) (id : UUID) :
    List Subscription :=
  m.subscriptions.filter (fun s => s.dispatcherID == id)

/-- A `dispatcher.EventDispatcher` as the hub sees it: its stable identity
(`GetID`). Its methods (`PushEvents`, `Close`) are external calls recorded
in `HubCall` traces. -/
structure EventDispatcher where
  id : UUID
deriving DecidableEq

/-- External calls the hub can make on its collaborators. -/
inductive HubCall where
  | removeSubs (id : UUID)
  | closeDispatcher (id : UUID)
  | pushEvents (id : UUID) (events : List Event)
deriving DecidableEq

/-- The `commonHub` state: the event filter, the subscription mapper, and the
dispatcher registry keyed by UUID (channels and the cancel function are
concurrency plumbing and carry no state of their own). -/
structure HubState where
  filter : Subscription → Event → Bool
  subscriptionMapper : SubscriptionMapper
  dispatchers : List (UUID × EventDispatcher)

/-- `registerDispatcher`: if the id is already present, return unchanged;
otherwise insert the dispatcher under its id. -/
def HubState.registerDispatcher (wh : HubState) (d : EventDispatcher) : HubState :=
  if (wh.dispatchers.lookup d.id).isSome then wh
  else { wh with dispatchers := wh.dispatchers ++ [(d.id, d)] }

/-- `unregisterDispatcher`: if the id is present, delete it from the map;
then call `subscriptionMapper.RemoveSubscriptions(id)`. The source makes no
`Close` call here; the returned trace records the external calls made. -/
def HubState.unregisterDispatcher (wh : HubState) (d : EventDispatcher) :
    HubState × List HubCall :=
  let dispatchers0 :=
    if (wh.dispatchers.lookup d.id).isSome then
      wh.dispatchers.filter (fun kv => !(kv.1 == d.id))
    else wh.dispatchers
  ({ wh with
      dispatchers := dispatchers0,
      subscriptionMapper := wh.subscriptionMapper.removeSubscriptions d.id },
   [HubCall.removeSubs d.id])

/-- The closure `mapEventToDispatcher` of `handleBroadcast`:
`dispatchersMap[id] = append(dispatchersMap[id], e)` on the accumulated
per-dispatcher map. -/
def mapEventToDispatcher : List (UUID × List Event) → UUID → Event →
    List (UUID × List Event)
  | [], id, e => [(id, [e])]
  | (k, es) :: rest, id, e =>
      if k == id then (k, es ++ [e]) :: rest
      else (k, es) :: mapEventToDispatcher rest id e

/-- The nested loops of `handleBroadcast`: for each event (outer) and each
subscription (inner), if the filter matches, append the event to the
subscription owner's list. -/
def buildDispatchersMap (filter : Subscription → Event → Bool)
    (subscriptions : List Subscription) (events : List Event) :
    List (UUID × List Event) :=
  events.foldl
    (fun m event =>
      subscriptions.foldl
        (fun m' subscription =>
          if filter subscription event then
            mapEventToDispatcher m' subscription.dispatcherID event
          else m')
        m)
    []

/-- `handleBroadcast`: snapshot the subscriptions, build the per-dispatcher
event map, then push each list to its dispatcher when the id is (still)
registered; an id absent from the registry is silently skipped. Returns the
pushes performed. -/
def HubState.handleBroadcast (wh : HubState) (blockEvents : BlockEvents) :
    List (UUID × List Event) :=
  (buildDispatchersMap wh.filter wh.subscriptionMapper.Subscriptions
      blockEvents.events).filter
    (fun kv => (wh.dispatchers.lookup kv.1).isSome)

/-- `handleRevertBroadcast`: the source function body is empty — no state
change and no call to any dispatcher. -/
def HubState.handleRevertBroadcast (_wh : HubState) (_revertBlock : RevertBlock) :
    List HubCall :=
  []

/-- `handleFinalizedBroadcast`: the source function body is empty — no state
change and no call to any dispatcher. -/
def HubState.handleFinalizedBroadcast (_wh : HubState)
    (_finalizedBlock : FinalizedBlock) : List HubCall :=
  []

/-- The events pushed to dispatcher `d` by a list of pushes. -/
def deliveredTo (pushes : List (UUID × List Event)) (d : UUID) : List Event :=
  (pushes.lookup d).getD []

/-- The number of subscriptions in the hub's mapper that are owned by `d`
and whose filter matches event `e`. -/
def matchCount (wh : HubState) (d : UUID) (e : Event) : Nat :=
  (wh.subscriptionMapper.Subscriptions.filter
    (fun s => wh.filter s e && s.dispatcherID == d)).length

/-- A trivial always-true event filter, for concrete hub states. -/
def trueFilter : Subscription → Event → Bool := fun _ _ => true

/-- A subscription of dispatcher 1 for the revert-events stream. -/
def subRevert : Subscription :=
  { dispatcherID := 1, address := none, identifier := none, topics := [],
    eventType := "REVERT_EVENTS" }

/-- A subscription of dispatcher 2 for the block-events stream. -/
def subBlock : Subscription :=
  { dispatcherID := 2, address := none, identifier := none, topics := [],
    eventType := "BLOCK_EVENTS" }

/-- A wildcard subscription of dispatcher 1. -/
def subAll1 : Subscription :=
  { dispatcherID := 1, address := none, identifier := none, topics := [],
    eventType := "ALL" }

/-- A wildcard subscription of dispatcher 7. -/
def subAll7 : Subscription :=
  { dispatcherID := 7, address := none, identifier := none, topics := [],
    eventType := "ALL" }

/-- The scenario S5 hub: dispatcher 1 subscribed to REVERT_EVENTS and
dispatcher 2 subscribed to BLOCK_EVENTS, both registered. -/
def hubS5 : HubState :=
  { filter := trueFilter,
    subscriptionMapper := ⟨[subRevert, subBlock]⟩,
    dispatchers := [(1, ⟨1⟩), (2, ⟨2⟩)] }

/-- A hub with dispatcher 1 registered and one wildcard subscription. -/
def hubReg1 : HubState :=
  { filter := trueFilter,
    subscriptionMapper := ⟨[subAll1]⟩,
    dispatchers := [(1, ⟨1⟩)] }

/-- A hub with an empty dispatcher registry. -/
def hubEmpty : HubState :=
  { filter := trueFilter,
    subscriptionMapper := ⟨[]⟩,
    dispatchers := [] }

/-- A hub where id 7 owns a subscription but was never registered. -/
def hubSub7 : HubState :=
  { filter := trueFilter,
    subscriptionMapper := ⟨[subAll7]⟩,
    dispatchers := [(1, ⟨1⟩)] }

/-- A data processor whose three decoders all succeed. -/
def dpNone : DataProcessor :=
  { saveBlockFn := fun _ => none,
    revertIndexedBlockFn := fun _ => none,
    finalizedBlockFn := fun _ => none }

/-- A distinctive v1 data processor, used to observe decoder dispatch. -/
def dpV1 : DataProcessor :=
  { saveBlockFn := fun _ => some (PayloadError.decodeError "v1"),
    revertIndexedBlockFn := fun _ => some (PayloadError.decodeError "v1"),
    finalizedBlockFn := fun _ => some (PayloadError.decodeError "v1") }

/-- A payload handler with decoders registered for versions v1 and v2 only. -/
def phV1V2 : PayloadHandler := ⟨[("v1", dpV1), ("v2", dpNone)]⟩

/-! ## RabbitMQ publisher (`rabbitmq/publisher.go`) -/

/-- The `config.RabbitMQConfig` exchange names used by the publisher. -/
structure RabbitMQConfig where
  EventsExchange : String
  RevertEventsExchange : String
  FinalizedEventsExchange : String
deriving DecidableEq

/-- One call to `client.Publish(exchange, key, mandatory, immediate, msg)`. -/
structure PublishCall where
  exchange : String
  routingKey : String
  mandatory : Bool
  immediate : Bool
  body : List Nat
deriving DecidableEq

/-- `publishFanout`: publish the payload on the exchange with the empty
routing key, mandatory = true, immediate = false. -/
def publishFanout (exchangeName : String) (payload : List Nat) : PublishCall :=
  { exchange := exchangeName, routingKey := "", mandatory := true,
    immediate := false, body := payload }

/-- `publishToExchanges`: when the block-events exchange name is non-empty,
JSON-marshal the events (an error aborts with no publish) and publish them
fanout; an empty exchange name publishes nothing. `jsonMarshal` stands for
`json.Marshal`. Returns the publish calls made. -/
def publishToExchanges (cfg : RabbitMQConfig)
    (jsonMarshal : BlockEvents → Option (List Nat)) (events : BlockEvents) :
    List PublishCall :=
  if cfg.EventsExchange ≠ "" then
    match jsonMarshal events with
    | none => []
    | some eventsBytes => [publishFanout cfg.EventsExchange eventsBytes]
  else []

/-- `publishRevertToExchange`: same shape for the revert-events exchange. -/
def publishRevertToExchange (cfg : RabbitMQConfig)
    (jsonMarshal : RevertBlock → Option (List Nat)) (revertBlock : RevertBlock) :
    List PublishCall :=
  if cfg.RevertEventsExchange ≠ "" then
    match jsonMarshal revertBlock with
    | none => []
    | some revertBlockBytes =>
        [publishFanout cfg.RevertEventsExchange revertBlockBytes]
  else []

/-- `publishFinalizedToExchange`: same shape for the finalized exchange. -/
def publishFinalizedToExchange (cfg : RabbitMQConfig)
    (jsonMarshal : FinalizedBlock → Option (List Nat))
    (finalizedBlock : FinalizedBlock) : List PublishCall :=
  if cfg.FinalizedEventsExchange ≠ "" then
    match jsonMarshal finalizedBlock with
    | none => []
    | some finalizedBlockBytes =>
        [publishFanout cfg.FinalizedEventsExchange finalizedBlockBytes]
  else []

/-- A concrete publisher configuration for the witness: block events and
finalized streams enabled, revert stream disabled. -/
def cfgW : RabbitMQConfig :=
  { EventsExchange := "events", RevertEventsExchange := "",
    FinalizedEventsExchange := "finalized" }

/-- C3: the source `saveBlock` returns `ErrInvalidPayloadType`, not
`ErrInvalidPayloadVersion`, when the version has no decoder entry: with
decoders for v1 and v2 only, `ProcessPayload(p, SaveBlock, v3)` fails with
`invalidPayloadType` (a distinct error from `invalidPayloadVersion`), while
version v1 dispatches the payload to the v1 decoder. -/
theorem saveBlock_unknown_version_returns_invalidPayloadType (p : List Nat) :
    phV1V2.ProcessPayload p TopicSaveBlock "v3" =
      (some PayloadError.invalidPayloadType, []) ∧
    PayloadError.invalidPayloadType ≠ PayloadError.invalidPayloadVersion ∧
    phV1V2.ProcessPayload p TopicSaveBlock "v1" =
      (dpV1.saveBlockFn p, [DecoderCall.saveBlock "v1" p]) :=
  ⟨rfl, by decide, rfl⟩

/-- C7: a topic that is not one of the seven registered topics makes
`ProcessPayload` succeed (nil error) without invoking any decoder. -/
theorem processPayload_unknown_topic_succeeds (ph : PayloadHandler)
    (payload : List Nat) (version topic : String)
    (h : topic ∉ registeredTopics) :
    ph.ProcessPayload payload topic version = (none, []) := by
  simp [registeredTopics, List.mem_cons, TopicSaveBlock, TopicRevertIndexedBlock,
    TopicSaveRoundsInfo, TopicSaveValidatorsRating, TopicSaveValidatorsPubKeys,
    TopicSaveAccounts, TopicFinalizedBlock] at h
  obtain ⟨h1, h2, h3, h4, h5, h6, h7⟩ := h
  have b1 : (topic == "SaveBlock") = false := beq_eq_false_iff_ne.mpr h1
  have b2 : (topic == "RevertIndexedBlock") = false := beq_eq_false_iff_ne.mpr h2
  have b3 : (topic == "SaveRoundsInfo") = false := beq_eq_false_iff_ne.mpr h3
  have b4 : (topic == "SaveValidatorsRating") = false := beq_eq_false_iff_ne.mpr h4
  have b5 : (topic == "SaveValidatorsPubKeys") = false := beq_eq_false_iff_ne.mpr h5
  have b6 : (topic == "SaveAccounts") = false := beq_eq_false_iff_ne.mpr h6
  have b7 : (topic == "FinalizedBlock") = false := beq_eq_false_iff_ne.mpr h7
  simp [PayloadHandler.ProcessPayload, PayloadHandler.actions, List.lookup,
    TopicSaveBlock, TopicRevertIndexedBlock, TopicSaveRoundsInfo,
    TopicSaveValidatorsRating, TopicSaveValidatorsPubKeys, TopicSaveAccounts,
    TopicFinalizedBlock, b1, b2, b3, b4, b5, b6, b7]

/-- Witness for C7 at the concrete topic UnknownTopic. -/
theorem processPayload_unknown_topic_succeeds_witness :
    "UnknownTopic" ∉ registeredTopics ∧
    phV1V2.ProcessPayload [1, 2] "UnknownTopic" "v1" = (none, []) :=
  ⟨by decide,
   processPayload_unknown_topic_succeeds phV1V2 [1, 2] "v1" "UnknownTopic" (by decide)⟩

/-- C10: the four no-op topics (SaveRoundsInfo, SaveValidatorsRating,
SaveValidatorsPubKeys, SaveAccounts) succeed with nil error for every payload
and every version string, and invoke no decoder. -/
theorem processPayload_noop_topics_succeed (ph : PayloadHandler)
    (payload : List Nat) (version : String) :
    ph.ProcessPayload payload TopicSaveRoundsInfo version = (none, []) ∧
    ph.ProcessPayload payload TopicSaveValidatorsRating version = (none, []) ∧
    ph.ProcessPayload payload TopicSaveValidatorsPubKeys version = (none, []) ∧
    ph.ProcessPayload payload TopicSaveAccounts version = (none, []) :=
  ⟨rfl, rfl, rfl, rfl⟩

/-! ## Association-list helper lemmas -/

lemma lookup_filter_key {β : Type} (q : UUID → Bool) :
    ∀ (m : List (UUID × β)) (d : UUID),
      (m.filter (fun kv => q kv.1)).lookup d = if q d then m.lookup d else none := by
  intro m
  induction m with
  | nil => intro d; simp [List.lookup]
  | cons kv rest ih =>
      intro d
      obtain ⟨k, es⟩ := kv
      by_cases hq : q k
      · by_cases hd : d = k
        · subst hd
          simp [List.filter_cons, hq, List.lookup]
        · have hbeq : (d == k) = false := beq_eq_false_iff_ne.mpr hd
          simp [List.filter_cons, hq, List.lookup, hbeq, ih]
      · by_cases hd : d = k
        · subst hd
          simp only [Bool.not_eq_true] at hq
          simp [List.filter_cons, hq, List.lookup, ih]
        · have hbeq : (d == k) = false := beq_eq_false_iff_ne.mpr hd
          simp only [Bool.not_eq_true] at hq
          simp [List.filter_cons, hq, List.lookup, hbeq, ih]

lemma lookup_append_single {β : Type} :
    ∀ (m : List (UUID × β)) (k : UUID) (v : β), m.lookup k = none →
      (m ++ [(k, v)]).lookup k = some v := by
  intro m
  induction m with
  | nil => intro k v _; simp [List.lookup]
  | cons kv rest ih =>
      intro k v h
      obtain ⟨a, b⟩ := kv
      by_cases hk : k = a
      · subst hk
        simp [List.lookup] at h
      · have hbeq : (k == a) = false := beq_eq_false_iff_ne.mpr hk
        simp only [List.lookup_cons, hbeq] at h
        simp only [List.cons_append, List.lookup_cons, hbeq]
        exact ih k v h

lemma not_mem_keys_of_lookup_none {β : Type} :
    ∀ (m : List (UUID × β)) (k : UUID), m.lookup k = none →
      k ∉ m.map Prod.fst := by
  intro m
  induction m with
  | nil => intro k _; simp
  | cons kv rest ih =>
      intro k h
      obtain ⟨a, b⟩ := kv
      by_cases hk : k = a
      · subst hk
        simp [List.lookup] at h
      · have hbeq : (k == a) = false := beq_eq_false_iff_ne.mpr hk
        simp only [List.lookup_cons, hbeq] at h
        simp only [List.map_cons, List.mem_cons]
        rintro (hka | hmem)
        · exact hk hka
        · exact ih k h hmem

/-! ## Broadcast bookkeeping lemmas -/

lemma deliveredTo_mapEventToDispatcher :
    ∀ (m : List (UUID × List Event)) (id : UUID) (e : Event) (d : UUID),
      deliveredTo (mapEventToDispatcher m id e) d =
        deliveredTo m d ++ (if id = d then [e] else []) := by
  intro m
  induction m with
  | nil =>
      intro id e d
      by_cases h : id = d
      · subst h; simp [mapEventToDispatcher, deliveredTo, List.lookup]
      · have hbeq : (d == id) = false := beq_eq_false_iff_ne.mpr (Ne.symm h)
        simp [mapEventToDispatcher, deliveredTo, List.lookup, hbeq, h]
  | cons kv rest ih =>
      intro id e d
      obtain ⟨k, es⟩ := kv
      by_cases hk : k = id
      · subst hk
        by_cases hd : d = k
        · subst hd
          simp [mapEventToDispatcher, deliveredTo, List.lookup]
        · have hbeq : (d == k) = false := beq_eq_false_iff_ne.mpr hd
          have hkd : ¬ k = d := fun hh => hd hh.symm
          simp [mapEventToDispatcher, deliveredTo, List.lookup, hbeq, hkd]
      · have hkbeq : (k == id) = false := beq_eq_false_iff_ne.mpr hk
        by_cases hd : d = k
        · subst hd
          have hidd : ¬ id = d := fun hh => hk hh.symm
          simp [mapEventToDispatcher, deliveredTo, List.lookup, hkbeq, hidd]
        · have hbeq : (d == k) = false := beq_eq_false_iff_ne.mpr hd
          have h1 := ih id e d
          simp [mapEventToDispatcher, deliveredTo, List.lookup, hkbeq, hbeq] at h1 ⊢
          exact h1

lemma deliveredTo_foldl_subscriptions (f : Subscription → Event → Bool) (e : Event)
    (d : UUID) :
    ∀ (subs : List Subscription) (m : List (UUID × List Event)),
      deliveredTo
          (subs.foldl
            (fun m' s =>
              if f s e then mapEventToDispatcher m' s.dispatcherID e else m') m) d =
        deliveredTo m d ++
          (subs.filter (fun s => f s e && s.dispatcherID == d)).map (fun _ => e) := by
  intro subs
  induction subs with
  | nil => intro m; simp
  | cons s rest ih =>
      intro m
      by_cases hf : f s e
      · by_cases hd : s.dispatcherID = d
        · have hbeq : (s.dispatcherID == d) = true := beq_iff_eq.mpr hd
          simp only [List.foldl_cons, hf, if_true, List.filter_cons, hbeq, hf,
            Bool.and_self, List.map_cons]
          rw [ih, deliveredTo_mapEventToDispatcher, if_pos hd]
          simp
        · have hbeq : (s.dispatcherID == d) = false := beq_eq_false_iff_ne.mpr hd
          simp only [List.foldl_cons, hf, if_true, List.filter_cons, hbeq,
            Bool.and_false]
          rw [ih, deliveredTo_mapEventToDispatcher, if_neg hd]
          simp
      · have hfb : f s e = false := by simpa using hf
        simp only [List.foldl_cons, hfb, Bool.false_eq_true, if_false,
          List.filter_cons, Bool.false_and]
        exact ih m

lemma deliveredTo_eventsLoop (f : Subscription → Event → Bool)
    (subs : List Subscription) (d : UUID) :
    ∀ (events : List Event) (m : List (UUID × List Event)),
      deliveredTo
          (events.foldl
            (fun acc event =>
              subs.foldl
                (fun m' s =>
                  if f s event then mapEventToDispatcher m' s.dispatcherID event
                  else m') acc)
            m) d =
        deliveredTo m d ++
          events.flatMap
            (fun e =>
              (subs.filter (fun s => f s e && s.dispatcherID == d)).map
                (fun _ => e)) := by
  intro events
  induction events with
  | nil => intro m; simp
  | cons e rest ih =>
      intro m
      simp only [List.foldl_cons, List.flatMap_cons]
      rw [ih, deliveredTo_foldl_subscriptions, List.append_assoc]

lemma deliveredTo_handleBroadcast (wh : HubState) (blockEvents : BlockEvents)
    (d : UUID) :
    deliveredTo (wh.handleBroadcast blockEvents) d =
      if (wh.dispatchers.lookup d).isSome then
        blockEvents.events.flatMap
          (fun e =>
            (wh.subscriptionMapper.Subscriptions.filter
              (fun s => wh.filter s e && s.dispatcherID == d)).map (fun _ => e))
      else [] := by
  unfold HubState.handleBroadcast deliveredTo
  rw [lookup_filter_key (fun id => (wh.dispatchers.lookup id).isSome)]
  by_cases h : (wh.dispatchers.lookup d).isSome
  · rw [if_pos h, if_pos h]
    have := deliveredTo_eventsLoop wh.filter wh.subscriptionMapper.Subscriptions d
      blockEvents.events []
    unfold buildDispatchersMap
    unfold deliveredTo at this
    simpa using this
  · rw [if_neg h, if_neg h]
    rfl

/-! ## Order-preservation lemmas -/

lemma dedup_replicate_succ_append {α : Type} [DecidableEq α] (a : α) :
    ∀ (n : Nat) (r : List α),
      (List.replicate (n + 1) a ++ r).dedup = (a :: r).dedup := by
  intro n
  induction n with
  | zero => intro r; simp
  | succ n ih =>
      intro r
      have hmem : a ∈ List.replicate (n + 1) a ++ r := by
        simp [List.mem_replicate]
      calc (List.replicate (n + 2) a ++ r).dedup
          = (a :: (List.replicate (n + 1) a ++ r)).dedup := by
            simp [List.replicate_succ]
        _ = (List.replicate (n + 1) a ++ r).dedup := List.dedup_cons_of_mem hmem
        _ = (a :: r).dedup := ih r

lemma dedup_flatMap_replicate_sublist {α : Type} [DecidableEq α] (cnt : α → Nat) :
    ∀ (l : List α),
      (l.flatMap (fun e => List.replicate (cnt e) e)).dedup.Sublist l.dedup := by
  intro l
  induction l with
  | nil => simp
  | cons a t ih =>
      rw [List.flatMap_cons]
      cases hn : cnt a with
      | zero =>
          simp only [List.replicate_zero, List.nil_append]
          by_cases hm : a ∈ t
          · rw [List.dedup_cons_of_mem hm]
            exact ih
          · rw [List.dedup_cons_of_not_mem hm]
            exact ih.trans (List.sublist_cons_self a t.dedup)
      | succ n =>
          rw [dedup_replicate_succ_append]
          by_cases hm : a ∈ t
          · have hmf : a ∈ t.flatMap (fun e => List.replicate (cnt e) e) := by
              rw [List.mem_flatMap]
              exact ⟨a, hm, by simp [List.mem_replicate, hn]⟩
            rw [List.dedup_cons_of_mem hmf, List.dedup_cons_of_mem hm]
            exact ih
          · have hmf : a ∉ t.flatMap (fun e => List.replicate (cnt e) e) := by
              rw [List.mem_flatMap]
              rintro ⟨b, hb, hab⟩
              rw [List.mem_replicate] at hab
              exact hm (hab.2 ▸ hb)
            rw [List.dedup_cons_of_not_mem hmf, List.dedup_cons_of_not_mem hm]
            exact ih.cons₂ a

/-! ## Claim theorems about the hub -/

/-- C4: for a BlockEvents batch, a dispatcher `d` that is registered at push
time receives, in event-major order, exactly one copy of each event per
subscription of `d` in the mapper snapshot whose filter matches it (so an
event matching two subscriptions of the same dispatcher appears twice, and an
event matching none of `d`'s subscriptions is not delivered to `d`); a
dispatcher id absent from the hub's registry receives nothing. -/
theorem hub_broadcast_delivery (wh : HubState) (blockEvents : BlockEvents)
    (d : UUID) :
    deliveredTo (wh.handleBroadcast blockEvents) d =
      if (wh.dispatchers.lookup d).isSome then
        blockEvents.events.flatMap
          (fun e =>
            (wh.subscriptionMapper.Subscriptions.filter
              (fun s => wh.filter s e && s.dispatcherID == d)).map (fun _ => e))
      else [] :=
  deliveredTo_handleBroadcast wh blockEvents d

/-- C5: the events a dispatcher receives from one batch preserve the batch's
event order: the delivered list is exactly the batch in order with each event
replaced by `matchCount` copies of itself, and, restricted to distinct
events, it is a subsequence of the batch's distinct events. -/
theorem hub_broadcast_order (wh : HubState) (blockEvents : BlockEvents)
    (d : UUID) :
    (deliveredTo (wh.handleBroadcast blockEvents) d =
      if (wh.dispatchers.lookup d).isSome then
        blockEvents.events.flatMap (fun e => List.replicate (matchCount wh d e) e)
      else []) ∧
    (deliveredTo (wh.handleBroadcast blockEvents) d).dedup.Sublist
      blockEvents.events.dedup := by
  have hmain := deliveredTo_handleBroadcast wh blockEvents d
  have hrep : deliveredTo (wh.handleBroadcast blockEvents) d =
      if (wh.dispatchers.lookup d).isSome then
        blockEvents.events.flatMap (fun e => List.replicate (matchCount wh d e) e)
      else [] := by
    rw [hmain]
    by_cases h : (wh.dispatchers.lookup d).isSome
    · rw [if_pos h, if_pos h]
      refine List.flatMap_congr ?_
      intro e _
      rw [List.map_const']
      rfl
    · rw [if_neg h, if_neg h]
  refine ⟨hrep, ?_⟩
  rw [hrep]
  by_cases h : (wh.dispatchers.lookup d).isSome
  · rw [if_pos h]
    exact dedup_flatMap_replicate_sublist (matchCount wh d) blockEvents.events
  · rw [if_neg h]
    simp

/-- C6: registering is idempotent: when the id is already a key, the hub is
unchanged; when it is absent, exactly one entry for it is appended, keys stay
duplicate-free, and the new entry maps the id to the dispatcher. -/
theorem hub_register_idempotent (wh : HubState) (d : EventDispatcher)
    (hnd : (wh.dispatchers.map Prod.fst).Nodup) :
    ((wh.dispatchers.lookup d.id).isSome → wh.registerDispatcher d = wh) ∧
    (wh.dispatchers.lookup d.id = none →
      (wh.registerDispatcher d).dispatchers = wh.dispatchers ++ [(d.id, d)] ∧
      ((wh.registerDispatcher d).dispatchers.map Prod.fst).Nodup ∧
      (wh.registerDispatcher d).dispatchers.lookup d.id = some d ∧
      (wh.registerDispatcher d).dispatchers.length = wh.dispatchers.length + 1) := by
  constructor
  · intro h
    unfold HubState.registerDispatcher
    rw [if_pos h]
  · intro h
    have hns : ¬ (wh.dispatchers.lookup d.id).isSome = true := by
      rw [h]; simp
    unfold HubState.registerDispatcher
    rw [if_neg hns]
    refine ⟨rfl, ?_, ?_, by simp⟩
    · have hnot := not_mem_keys_of_lookup_none wh.dispatchers d.id h
      simp only [List.map_append, List.map_cons, List.map_nil]
      rw [List.nodup_append]
      refine ⟨hnd, by simp, ?_⟩
      intro x hx hx'
      simp only [List.mem_singleton] at hx'
      exact hnot (hx' ▸ hx)
    · exact lookup_append_single wh.dispatchers d.id d h

/-- Witness for C6: re-registering dispatcher 1 on a hub that has it leaves
the hub unchanged; registering it on an empty hub appends its single entry. -/
theorem hub_register_idempotent_witness :
    hubReg1.registerDispatcher ⟨1⟩ = hubReg1 ∧
    (hubEmpty.registerDispatcher ⟨1⟩).dispatchers = [] ++ [(1, ⟨1⟩)] :=
  ⟨(hub_register_idempotent hubReg1 ⟨1⟩ (by decide)).1 (by decide),
   ((hub_register_idempotent hubEmpty ⟨1⟩ (by decide)).2 (by decide)).1⟩

/-- C2 (amended): handling unregister(D) deletes D.id from the registry when
present, removes all of D.id's subscriptions from the mapper, and performs
exactly the external call `removeSubscriptions(D.id)` — in particular no
`close` call is made on the dispatcher. -/
theorem hub_unregister_removes (wh : HubState) (d : EventDispatcher) :
    (wh.unregisterDispatcher d).1.subscriptionMapper.subscriptionsFor d.id = [] ∧
    (wh.unregisterDispatcher d).1.dispatchers.lookup d.id = none ∧
    (wh.unregisterDispatcher d).2 = [HubCall.removeSubs d.id] ∧
    HubCall.closeDispatcher d.id ∉ (wh.unregisterDispatcher d).2 := by
  refine ⟨?_, ?_, rfl, by simp [HubState.unregisterDispatcher]⟩
  · show (wh.subscriptionMapper.removeSubscriptions d.id).subscriptionsFor d.id = []
    unfold SubscriptionMapper.removeSubscriptions SubscriptionMapper.subscriptionsFor
    rw [List.filter_filter]
    have hfalse : ∀ s : Subscription,
        ((s.dispatcherID == d.id) && !(s.dispatcherID == d.id)) = false := by
      intro s; cases s.dispatcherID == d.id <;> rfl
    simp [hfalse]
  · show (if (wh.dispatchers.lookup d.id).isSome then
        wh.dispatchers.filter (fun kv => !(kv.1 == d.id))
      else wh.dispatchers).lookup d.id = none
    by_cases h : (wh.dispatchers.lookup d.id).isSome
    · rw [if_pos h, lookup_filter_key (fun k => !(k == d.id))]
      simp
    · rw [if_neg h]
      exact Option.not_isSome_iff_eq_none.mp h

/-- C2 counterexample: on a hub with dispatcher 1 registered and subscribed,
handling unregister performs exactly the call `removeSubscriptions(1)` and no
`close` call on the dispatcher, contrary to the claim that `D.close()` is
then called. -/
theorem hub_unregister_no_close_counterexample :
    (hubReg1.unregisterDispatcher ⟨1⟩).2 = [HubCall.removeSubs 1] ∧
    ((hubReg1.unregisterDispatcher ⟨1⟩).2.contains
      (HubCall.closeDispatcher 1)) = false := by
  decide

/-- C9: unregistering an id that was never registered still removes all of
its subscriptions from the mapper and leaves the registry unchanged. -/
theorem hub_unregister_unknown_id (wh : HubState) (d : EventDispatcher)
    (h : wh.dispatchers.lookup d.id = none) :
    (wh.unregisterDispatcher d).1.subscriptionMapper.subscriptionsFor d.id = [] ∧
    (wh.unregisterDispatcher d).1.dispatchers = wh.dispatchers := by
  refine ⟨(hub_unregister_removes wh d).1, ?_⟩
  show (if (wh.dispatchers.lookup d.id).isSome then
      wh.dispatchers.filter (fun kv => !(kv.1 == d.id))
    else wh.dispatchers) = wh.dispatchers
  rw [h]
  rfl

/-- Witness for C9: id 7 owns a subscription but is not registered; after
unregister(7) the mapper holds nothing for 7 and the registry is unchanged. -/
theorem hub_unregister_unknown_id_witness :
    hubSub7.subscriptionMapper.subscriptionsFor 7 ≠ [] ∧
    ((hubSub7.unregisterDispatcher ⟨7⟩).1.subscriptionMapper.subscriptionsFor 7 = [] ∧
      (hubSub7.unregisterDispatcher ⟨7⟩).1.dispatchers = hubSub7.dispatchers) :=
  ⟨by decide, hub_unregister_unknown_id hubSub7 ⟨7⟩ (by decide)⟩

/-- C1: the hub's revert and finalized handlers are empty in the source —
broadcasting a RevertBlock (or FinalizedBlock) on the S5 hub, where
dispatcher 1 is registered with a REVERT_EVENTS subscription, delivers
nothing to any dispatcher, contrary to the claimed routing. -/
theorem hub_revert_finalized_no_delivery :
    hubS5.handleRevertBroadcast ⟨"0xaa", 1, 1, 1⟩ = [] ∧
    hubS5.handleFinalizedBroadcast ⟨"0xaa"⟩ = [] ∧
    ∀ c : HubCall, c ∉ hubS5.handleRevertBroadcast ⟨"0xaa", 1, 1, 1⟩ :=
  ⟨rfl, rfl, fun c => List.not_mem_nil c⟩

/-! ## Claim theorems about the publisher -/

/-- C8: for each of the publisher's three streams, an empty configured
exchange name means the handler performs no publish; a non-empty name means
the JSON-serialized payload is published exactly once to that exchange with
mandatory = true, immediate = false, and the empty routing key. -/
theorem publisher_streams (cfg : RabbitMQConfig)
    (mE : BlockEvents → Option (List Nat)) (mR : RevertBlock → Option (List Nat))
    (mF : FinalizedBlock → Option (List Nat)) (ev : BlockEvents)
    (rb : RevertBlock) (fb : FinalizedBlock) :
    (cfg.EventsExchange = "" → publishToExchanges cfg mE ev = []) ∧
    (∀ b, cfg.EventsExchange ≠ "" → mE ev = some b →
      publishToExchanges cfg mE ev =
        [⟨cfg.EventsExchange, "", true, false, b⟩]) ∧
    (cfg.RevertEventsExchange = "" → publishRevertToExchange cfg mR rb = []) ∧
    (∀ b, cfg.RevertEventsExchange ≠ "" → mR rb = some b →
      publishRevertToExchange cfg mR rb =
        [⟨cfg.RevertEventsExchange, "", true, false, b⟩]) ∧
    (cfg.FinalizedEventsExchange = "" →
      publishFinalizedToExchange cfg mF fb = []) ∧
    (∀ b, cfg.FinalizedEventsExchange ≠ "" → mF fb = some b →
      publishFinalizedToExchange cfg mF fb =
        [⟨cfg.FinalizedEventsExchange, "", true, false, b⟩]) := by
  refine ⟨?_, ?_, ?_, ?_, ?_, ?_⟩
  · intro h
    unfold publishToExchanges
    simp [h]
  · intro b h hm
    unfold publishToExchanges
    rw [if_pos h, hm]
    rfl
  · intro h
    unfold publishRevertToExchange
    simp [h]
  · intro b h hm
    unfold publishRevertToExchange
    rw [if_pos h, hm]
    rfl
  · intro h
    unfold publishFinalizedToExchange
    simp [h]
  · intro b h hm
    unfold publishFinalizedToExchange
    rw [if_pos h, hm]
    rfl

/-- Witness for C8: with the block-events exchange named, the revert exchange
empty and the finalized exchange named, one message per stream produces one
publish, none, and one publish respectively. -/
theorem publisher_streams_witness :
    publishToExchanges cfgW (fun _ => some [7])
        ⟨"0xaa", 0, 0, []⟩ = [⟨"events", "", true, false, [7]⟩] ∧
    publishRevertToExchange cfgW (fun _ => some [8]) ⟨"0xaa", 1, 1, 1⟩ = [] ∧
    publishFinalizedToExchange cfgW (fun _ => some [9])
        ⟨"0xaa"⟩ = [⟨"finalized", "", true, false, [9]⟩] := by
  have h := publisher_streams cfgW (fun _ => some [7]) (fun _ => some [8])
    (fun _ => some [9]) ⟨"0xaa", 0, 0, []⟩ ⟨"0xaa", 1, 1, 1⟩ ⟨"0xaa"⟩
  exact ⟨h.2.1 [7] (by decide) rfl, h.2.2.1 rfl, h.2.2.2.2.2 [9] (by decide) rfl⟩

end Notifier
